import Mathlib

/-!
Verification of the erudite extraction-to-graph pipeline.

The development shallowly embeds the Python sources of the repository:

* `Erudite.Html`     — src/extractors/common.py and src/extractors/gutenberg_html.py
  (text cleaning, chapter/paragraph extraction, metadata and citation synthesis);
* `Erudite.Loader`   — src/loaders/common/types.py and src/loaders/gutenberg.py
  (Entry/Reference graph, deterministic identifiers, flattening of a book);
* `Erudite.Registry` — src/extractors/dunder-init and src/utils/extractor.py
  (format-keyed extractor selection).

Pure Python functions become Lean functions; fallible operations return
`Except`; Python dictionaries are association lists.  External library calls
(unicodedata NFKD, datetime strptime/strftime, weaviate generate_uuid5) are
modelled from the specification, as documented at each such definition.
-/

namespace Erudite

namespace Html

/-- Python `str.strip` / regex whitespace, restricted to the characters of the
class: space, tab, newline, carriage return, vertical tab, form feed, and the
no-break space (all whitespace Python recognises in the texts considered). -/
def pyIsSpace (c : Char) : Bool :=
  c = ' ' || c = Char.ofNat 9 || c = Char.ofNat 10 || c = Char.ofNat 13 ||
  c = Char.ofNat 11 || c = Char.ofNat 12 || c = Char.ofNat 160

/-- Python `str.strip`: remove leading and trailing whitespace. -/
def pyStrip (s : String) : String :=
  String.mk (((s.data.dropWhile pyIsSpace).reverse.dropWhile pyIsSpace).reverse)

/-- Modelled from the spec: "apply compatibility Unicode normalization
(decomposition then recomposition per NFKD-equivalent rule)".  The
normalization itself is the external `unicodedata.normalize` with form NFKD;
we model it characterwise by a small compatibility-decomposition table and the
identity on every character without a compatibility decomposition, which
covers all ASCII text. -/
def nfkdChar (c : Char) : List Char :=
  if c = Char.ofNat 160 then [' ']
  else if c = Char.ofNat 0xFB01 then ['f', 'i']
  else if c = Char.ofNat 0xFB02 then ['f', 'l']
  else [c]

/-- Modelled from the spec (see `nfkdChar`): compatibility normalization of a
whole string. -/
def nfkd (s : String) : String :=
  String.mk (s.data.flatMap nfkdChar)

/-- Embedding of `Extractor.clean_soup` (src/extractors/common.py): substitute
the left and right curly double quotes by a straight double quote, apply NFKD
normalization, and strip surrounding whitespace. -/
def clean_soup (text : String) : String :=
  let ret := String.mk (text.data.map (fun c =>
    if c = Char.ofNat 0x201C || c = Char.ofNat 0x201D then '"' else c))
  pyStrip (nfkd ret)

/-- Embedding of `GutenbergExtractor.clean_paragraph`
(src/extractors/gutenberg_html.py): `clean_soup`, then every newline replaced
by a space. -/
def clean_paragraph (text : String) : String :=
  String.mk ((clean_soup text).data.map (fun c => if c = Char.ofNat 10 then ' ' else c))

/-- A chapter-boundary container of the input markup (a `div` of class
`chapter`): the text of its first level-2 heading, when one exists, and the
raw text of each of its paragraph elements, in document order. -/
structure ChapterDiv where
  h2_text : Option String
  p_texts : List String

/-- An entry of the `paragraphs` array of the output JSON document. -/
structure ParagraphJson where
  seq : Nat
  text : String
deriving DecidableEq

/-- An entry of the `chapters` array of the output JSON document. -/
structure ChapterJson where
  title : Option String
  seq : Nat
  text : String
  paragraphs : List ParagraphJson
deriving DecidableEq

/-- Embedding of the materiality test `len(...) in [0, 1, 2]` used by
`Chapters.clean_chapters` (as the local `is_empty`) and by
`Paragraphs.build_paragraph_set`. -/
def is_empty (paragraph : String) : Bool :=
  paragraph.length == 0 || paragraph.length == 1 || paragraph.length == 2

/-- Embedding of `Paragraphs.build_paragraph_set`, with the running sequence
counter made explicit: a paragraph whose cleaned text fails the materiality
test is skipped without advancing the counter. -/
def build_paragraph_go : List String → Nat → List ParagraphJson
  | [], _ => []
  | p :: rest, seq =>
    let para := clean_paragraph p
    if is_empty para then build_paragraph_go rest seq
    else { seq := seq, text := para } :: build_paragraph_go rest (seq + 1)

/-- Embedding of `Paragraphs.build_paragraph_set`: the counter starts at 1. -/
def build_paragraph_set (ps : List String) : List ParagraphJson :=
  build_paragraph_go ps 1

/-- What the capture group `(.*)` of the title regex matches: the longest
newline-free prefix (a dot does not match a newline in Python). -/
def firstLine (s : String) : String :=
  String.mk (s.data.takeWhile (fun c => c ≠ Char.ofNat 10))

/-- Capture group 1 of `re.match` with pattern lazy-optional-prefix,
optional-newline, `(.*)`: the lazy prefix matches the empty string first and
the whole pattern already succeeds there, so the optional newline consumes a
character exactly when the text starts with one, and the group captures the
following line. -/
def regex_group1 (t : String) : String :=
  match t.data with
  | c :: rest =>
    if c = Char.ofNat 10 then String.mk (rest.takeWhile (fun x => x ≠ Char.ofNat 10))
    else firstLine t
  | [] => ""

/-- Embedding of `Chapters.get_title`: when the chapter has no level-2
heading, the attribute access fails and the title is None; otherwise the match
never fails and group 1 is returned. -/
def get_title (h2_text : Option String) : Option String :=
  h2_text.map regex_group1

/-- A dictionary appended by `Chapters.clean_chapters` (title, whole-chapter
text, and the chapter's paragraph elements). -/
structure CleanChapter where
  title : Option String
  text : String
  paragraphs : List String

/-- The whole-chapter text of `Chapters.clean_chapters`: the space-join of the
paragraph texts, cleaned by `clean_paragraph`. -/
def chapter_text (c : ChapterDiv) : String :=
  clean_paragraph (String.intercalate " " c.p_texts)

/-- Embedding of `Chapters.clean_chapters`: keep, in document order, exactly
the chapters whose whole-chapter cleaned text fails the `is_empty` test. -/
def clean_chapters : List ChapterDiv → List CleanChapter
  | [] => []
  | chap :: rest =>
    let text := chapter_text chap
    if is_empty text then clean_chapters rest
    else { title := get_title chap.h2_text, text := text, paragraphs := chap.p_texts }
      :: clean_chapters rest

/-- Embedding of the enumeration loop of `Chapters.get`, with the sequence
counter explicit. -/
def chapters_get_go : List CleanChapter → Nat → List ChapterJson
  | [], _ => []
  | c :: rest, seq =>
    { title := c.title, seq := seq, text := c.text,
      paragraphs := build_paragraph_set c.paragraphs } :: chapters_get_go rest (seq + 1)

/-- Embedding of `Chapters.get`: enumerate the retained chapters from 1. -/
def chapters_get (chs : List ChapterDiv) : List ChapterJson :=
  chapters_get_go (clean_chapters chs) 1

/-- The parsed input markup, as the extractor's `Book` class reads it: the
document-level metadata annotations in document order (name and content of
each meta tag), the text of the first level-1 and level-2 headings that are
direct children of the body (the title and author fallbacks), and the
chapter-boundary containers in document order. -/
structure HtmlDoc where
  meta_tags : List (String × String)
  body_h1 : Option String
  body_h2 : Option String
  chapter_divs : List ChapterDiv

/-- Embedding of `Book.get_meta`: content of the first meta tag with the given
name, None when there is none. -/
def get_meta (doc : HtmlDoc) (name : String) : Option String :=
  List.lookup name doc.meta_tags

/-- Digit value of an ASCII decimal digit. -/
def digitVal (c : Char) : Option Nat :=
  if c.isDigit then some (c.toNat - 48) else none

/-- Abbreviated month names, as the `%b` directive renders them. -/
def monthAbbrev : Nat → String
  | 1 => "Jan" | 2 => "Feb" | 3 => "Mar" | 4 => "Apr" | 5 => "May" | 6 => "Jun"
  | 7 => "Jul" | 8 => "Aug" | 9 => "Sep" | 10 => "Oct" | 11 => "Nov" | 12 => "Dec"
  | _ => ""

/-- Days of each month, with the Gregorian leap rule for February. -/
def daysInMonth (y m : Nat) : Nat :=
  if m = 2 then
    if y % 4 = 0 && (y % 100 ≠ 0 || y % 400 = 0) then 29 else 28
  else if m = 4 || m = 6 || m = 9 || m = 11 then 30
  else 31

/-- Zero-padded two-digit rendering, as the `%d` directive produces. -/
def pad2 (n : Nat) : String :=
  if n < 10 then "0" ++ toString n else toString n

/-- Zero-padded four-digit rendering, as the `%Y` directive produces. -/
def pad4 (n : Nat) : String :=
  if n < 10 then "000" ++ toString n
  else if n < 100 then "00" ++ toString n
  else if n < 1000 then "0" ++ toString n
  else toString n

/-- Parse exactly ten characters of the form four-digit year, dash, two-digit
month, dash, two-digit day, validated against the calendar. -/
def parseDate10 (l : List Char) : Option (Nat × Nat × Nat) :=
  match l with
  | [y1, y2, y3, y4, s1, m1, m2, s2, d1, d2] =>
    if s1 = '-' && s2 = '-' then
      match digitVal y1, digitVal y2, digitVal y3, digitVal y4,
            digitVal m1, digitVal m2, digitVal d1, digitVal d2 with
      | some a, some b, some c, some d, some e, some f, some g, some h =>
        let y := ((a * 10 + b) * 10 + c) * 10 + d
        let m := e * 10 + f
        let dd := g * 10 + h
        if 1 ≤ m && m ≤ 12 && 1 ≤ dd && dd ≤ daysInMonth y m then some (y, m, dd)
        else none
      | _, _, _, _, _, _, _, _ => none
    else if s1 = '-' then none else none
  | _ => none

/-- Embedding of `Book.convert_date`.  Modelled from the spec: "the retrieval
date reformatted from YYYY-MM-DD to Mon DD, YYYY"; the conversion itself is
the external datetime strptime/strftime pair, applied to the first ten
characters, returning None (the caught ValueError/TypeError/AttributeError)
when the argument is None or those characters are not a calendar date in
YYYY-MM-DD form. -/
def convert_date : Option String → Option String
  | Option.none => Option.none
  | some s =>
    match parseDate10 (s.data.take 10) with
    | some (y, m, d) => some (monthAbbrev m ++ " " ++ pad2 d ++ ", " ++ pad4 y)
    | Option.none => Option.none

/-- Test for the regex class of ASCII capital letters. -/
def isUpperAZ (c : Char) : Bool := 'A' ≤ c && c ≤ 'Z'

/-- Test for the regex class lowercase letter, hyphen, or apostrophe. -/
def isNameTail (c : Char) : Bool :=
  ('a' ≤ c && c ≤ 'z') || c = '-' || c = Char.ofNat 39

/-- One repetition unit of the author regex: a capital letter, one or more
tail characters (greedy), then at most one whitespace character (greedy).
Returns the matched characters and the remaining input. -/
def matchUnit : List Char → Option (List Char × List Char)
  | [] => Option.none
  | c :: rest =>
    if isUpperAZ c then
      let tl := rest.takeWhile isNameTail
      if tl.isEmpty then Option.none
      else
        match rest.drop tl.length with
        | s :: rest3 =>
          if pyIsSpace s then some (c :: tl ++ [s], rest3) else some (c :: tl, rest.drop tl.length)
        | [] => some (c :: tl, [])
    else Option.none

/-- Greedy one-or-more repetition of `matchUnit`, with fuel (each unit
consumes at least two characters, so fuel one beyond the input length always
suffices). -/
def matchRun : Nat → List Char → Option (List Char × List Char)
  | 0, _ => Option.none
  | fuel + 1, l =>
    match matchUnit l with
    | Option.none => Option.none
    | some (m, rest) =>
      match matchRun fuel rest with
      | some (m2, rest2) => some (m ++ m2, rest2)
      | Option.none => some (m, rest)

/-- Scan of `re.findall`: try a match at each position, emit it and resume
after its end, otherwise advance one character. -/
def findall_go : Nat → List Char → List String
  | 0, _ => []
  | fuel + 1, l =>
    match matchRun (l.length + 1) l with
    | some (m, rest) => String.mk m :: findall_go fuel rest
    | Option.none =>
      match l with
      | [] => []
      | _ :: rest => findall_go fuel rest

/-- Embedding of the `findall` call of `Book.author`: all matches of the
capitalized-name regex, left to right. -/
def author_findall (s : String) : List String :=
  findall_go (s.data.length + 1) s.data

/-- The Python value stored under the `author` key of the output document: the
annotation's plain string, the fallback's list of strings, or null. -/
inductive AuthorField where
  | null
  | str (s : String)
  | strlist (l : List String)
deriving DecidableEq

/-- Truth of being a list value (of any contents). -/
def AuthorField.isList : AuthorField → Bool
  | .strlist _ => true
  | _ => false

/-- Python f-string interpolation of an optional string: None renders as the
four letters None. -/
def pyFString : Option String → String
  | some s => s
  | Option.none => "None"

/-- Embedding of the citation f-string of `Book.get`. -/
def citation_of (rights author title retrieved source : Option String) : String :=
  pyFString rights ++ " " ++ pyFString author ++ ". " ++ pyFString title ++
  ". Urbana, Illinois: Project Gutenberg. Retrieved " ++ pyFString retrieved ++
  " from " ++ pyFString source

/-- The output JSON document of `Book.get`. -/
structure BookJson where
  title : Option String
  author : AuthorField
  language : Option String
  subject : Option String
  citation : String
  chapters : List ChapterJson

/-- Embedding of `Book.get` (src/extractors/gutenberg_html.py): metadata
annotations first, heading fallbacks for title and author, synthesized
citation, and the extracted chapters. -/
def book_get (doc : HtmlDoc) : BookJson :=
  let title := get_meta doc "dc.title"
  let author := get_meta doc "dc.creator"
  let language := get_meta doc "dc.language"
  let subject := get_meta doc "dc.subject"
  let source := get_meta doc "dcterms.source"
  let retrieved := convert_date (get_meta doc "dcterms.modified")
  let rights := get_meta doc "dc.rights"
  { title :=
      match title with
      | some t => some t
      | Option.none => doc.body_h1,
    author :=
      match author with
      | some a => AuthorField.str a
      | Option.none =>
        match doc.body_h2 with
        | some t => AuthorField.strlist (author_findall t)
        | Option.none => AuthorField.null,
    language := language,
    subject := subject,
    citation := citation_of rights author title retrieved source,
    chapters := chapters_get doc.chapter_divs }

end Html

namespace Loader

mutual

/-- A Python value, as the loader receives it from the extracted JSON: null,
string, integer, list, or string-keyed dictionary in insertion order (the
element containers are their own inductive types so that all recursion over
values is structural and kernel-computable). -/
inductive PyVal where
  | none
  | str (s : String)
  | int (n : Int)
  | list (l : PyValList)
  | dict (l : PyDict)

/-- The elements of a Python list value, in order. -/
inductive PyValList where
  | nil
  | cons (v : PyVal) (rest : PyValList)

/-- The key-value pairs of a Python dictionary value, in insertion order. -/
inductive PyDict where
  | nil
  | cons (k : String) (v : PyVal) (rest : PyDict)

end

/-- Build a Python list value from a Lean list. -/
def PyValList.ofList : List PyVal → PyValList
  | [] => .nil
  | v :: rest => .cons v (PyValList.ofList rest)

/-- The elements of a Python list value as a Lean list. -/
def PyValList.toList : PyValList → List PyVal
  | .nil => []
  | .cons v rest => v :: PyValList.toList rest

/-- Build a Python dictionary value from a Lean association list. -/
def PyDict.ofList : List (String × PyVal) → PyDict
  | [] => .nil
  | (k, v) :: rest => .cons k v (PyDict.ofList rest)

/-- The pairs of a Python dictionary value as a Lean association list. -/
def PyDict.toList : PyDict → List (String × PyVal)
  | .nil => []
  | .cons k v rest => (k, v) :: PyDict.toList rest

/-- A Python list value written with Lean list syntax. -/
def PyVal.mkList (l : List PyVal) : PyVal := .list (PyValList.ofList l)

/-- A Python dictionary value written with Lean list syntax. -/
def PyVal.mkDict (l : List (String × PyVal)) : PyVal := .dict (PyDict.ofList l)

/-- Round trip of the list-value conversions. -/
theorem PyValList.toList_ofList (l : List PyVal) : (PyValList.ofList l).toList = l := by
  induction l with
  | nil => rfl
  | cons v rest ih => simp [PyValList.ofList, PyValList.toList, ih]

/-- A single quote character, as Python repr delimits strings. -/
def sq : String := String.singleton (Char.ofNat 39)

mutual

/-- Python `repr` of a value (strings are taken to contain no characters that
repr would escape, which holds for all inputs considered here). -/
def pyRepr : PyVal → String
  | .none => "None"
  | .str s => sq ++ s ++ sq
  | .int n => toString n
  | .list l => "[" ++ pyReprList l ++ "]"
  | .dict l => "\x7b" ++ pyReprDict l ++ "\x7d"

/-- Comma-joined reprs of a list value's elements. -/
def pyReprList : PyValList → String
  | .nil => ""
  | .cons v .nil => pyRepr v
  | .cons v rest => pyRepr v ++ ", " ++ pyReprList rest

/-- Comma-joined key-colon-value reprs of a dictionary value's pairs. -/
def pyReprDict : PyDict → String
  | .nil => ""
  | .cons k v .nil => sq ++ k ++ sq ++ ": " ++ pyRepr v
  | .cons k v rest => sq ++ k ++ sq ++ ": " ++ pyRepr v ++ ", " ++ pyReprDict rest

end

/-- Python `str` of a value: the string itself for strings, repr otherwise. -/
def pyStr : PyVal → String
  | .str s => s
  | v => pyRepr v

/-- Modelled from the spec: `Entry.uuid` calls the external
`weaviate.util.generate_uuid5`, which returns the UUID5 (a SHA1 digest in
UUID form) of the concatenation str(identifier) + str(namespace); the spec
treats digest collisions across distinct inputs as "acceptably improbable
..., not defended against", so the identifier is modelled by the exact hash
input string, on which the digest is a function. -/
def generate_uuid5 (identifier : PyVal) (ns : String) : String :=
  pyStr identifier ++ ns

/-- A Reference (src/loaders/common/types.py), with the two endpoint entries
represented by their identity tags (creation indices): Python compares the
endpoints by object identity. -/
structure RefObj where
  parent : Nat
  child : Nat
  on_parent_property : String
  on_child_property : Option String
deriving DecidableEq

/-- An Entry (src/loaders/common/types.py): its identity tag, the class name
it is inserted under, the full data dictionary passed at construction, and
the reference list it accumulates. -/
structure EntryObj where
  idx : Nat
  class_name : String
  data : PyVal
  refs : List RefObj

/-- Embedding of `Entry.uuid`: `generate_uuid5` of the full constructor data,
namespaced by the class name. -/
def entry_uuid (e : EntryObj) : String :=
  generate_uuid5 e.data e.class_name

/-- Embedding of `Entry.add_references` for a single reference: drop an
already-present duplicate, reject a reference of which self is neither
endpoint, append otherwise. -/
def add_reference (e : EntryObj) (r : RefObj) : Option EntryObj :=
  if e.refs.contains r then some e
  else if r.child = e.idx || r.parent = e.idx then some { e with refs := e.refs ++ [r] }
  else Option.none

/-- Python exceptions the flattening can raise. -/
inductive PyErr where
  | keyError
  | typeError
deriving DecidableEq

/-- Python subscription `v[k]` on a value expected to be a dictionary:
KeyError when the key is absent, TypeError when the value is not a
dictionary. -/
def pyGetItem (v : PyVal) (k : String) : Except PyErr PyVal :=
  match v with
  | .dict l =>
    match List.lookup k l.toList with
    | some x => Except.ok x
    | Option.none => Except.error PyErr.keyError
  | _ => Except.error PyErr.typeError

/-- Python iteration over a value expected to be a list (iteration over the
non-sequence values that can occur here is modelled as a TypeError). -/
def pyAsList : PyVal → Except PyErr (List PyVal)
  | .list l => Except.ok l.toList
  | _ => Except.error PyErr.typeError

/-- Iterating a list value built from a Lean list yields that list. -/
theorem pyAsList_mkList (l : List PyVal) : pyAsList (PyVal.mkList l) = Except.ok l := by
  simp [pyAsList, PyVal.mkList, PyValList.toList_ofList]

/-- The `paragraphs` list of each chapter dictionary, in chapter order, as
`Chapter.get_paragraphs` reads them. -/
def paragraphLists : List PyVal → Except PyErr (List (List PyVal))
  | [] => Except.ok []
  | c :: rest =>
    match pyGetItem c "paragraphs" with
    | Except.error e => Except.error e
    | Except.ok psVal =>
      match pyAsList psVal with
      | Except.error e => Except.error e
      | Except.ok ps =>
        match paragraphLists rest with
        | Except.error e => Except.error e
        | Except.ok more => Except.ok (ps :: more)

/-- The Paragraph entries of one chapter, as `Chapter.get_paragraphs` creates
them: the chapter holds identity tag `chapTag`, its paragraphs receive
consecutive tags from `base`; each paragraph stores the single reverse
reference (itself in the parent slot) to its chapter under `containedIn`. -/
def parasOfChapter (chapTag : Nat) : Nat → List PyVal → List EntryObj
  | _, [] => []
  | base, p :: rest =>
    { idx := base, class_name := "Paragraph", data := p,
      refs := [{ parent := base, child := chapTag,
                 on_parent_property := "containedIn", on_child_property := Option.none }] }
      :: parasOfChapter chapTag (base + 1) rest

/-- The Chapter entry for one chapter dictionary: created by
`Book.get_chapters` with the reverse reference to the book (tag 0) under
`containedIn`, then extended by `Chapter.get_paragraphs` with one forward
reference per paragraph under `paragraphs`, in order. -/
def chapterEntryOf (c : PyVal) (tag base plen : Nat) : EntryObj :=
  { idx := tag, class_name := "Chapter", data := c,
    refs := { parent := tag, child := 0,
              on_parent_property := "containedIn", on_child_property := Option.none }
      :: (List.range plen).map (fun j =>
          { parent := tag, child := base + j,
            on_parent_property := "paragraphs", on_child_property := Option.none }) }

/-- The Chapter entries of the book, chapter `i` (0-based) carrying identity
tag `tag + i`, its paragraphs tagged consecutively after those of the
previous chapters. -/
def chaptersOf : List (PyVal × List PyVal) → Nat → Nat → List EntryObj
  | [], _, _ => []
  | (c, ps) :: rest, tag, base =>
    chapterEntryOf c tag base ps.length :: chaptersOf rest (tag + 1) (base + ps.length)

/-- All Paragraph entries, flattened in chapter-major order, exactly as
`functools.reduce` with `operator.concat` joins the per-chapter lists. -/
def parasOf : List (PyVal × List PyVal) → Nat → Nat → List EntryObj
  | [], _, _ => []
  | (_, ps) :: rest, tag, base =>
    parasOfChapter tag base ps ++ parasOf rest (tag + 1) (base + ps.length)

/-- The Book entry's reference list: one forward reference per chapter under
`chapters` (added during `get_chapters`), then the forward reference to the
Meta entry under `meta` (added last, by `get_meta`). -/
def bookRefs (n metaTag : Nat) : List RefObj :=
  (List.range n).map (fun i =>
    { parent := 0, child := 1 + i,
      on_parent_property := "chapters", on_child_property := Option.none })
  ++ [{ parent := 0, child := metaTag,
        on_parent_property := "meta", on_child_property := Option.none }]

/-- The entry list `BookCompilation.get_entries` yields once the chapter and
paragraph dictionaries have been read: the Book entry (tag 0, full input data),
the Meta entry (also carrying the full input data), the Chapter entries in
order, then the Paragraph entries in chapter-major order.  Identity tags
follow creation order: book, chapters, paragraphs, meta. -/
def assembleEntries (jsonObj : PyVal) (cps : List (PyVal × List PyVal)) : List EntryObj :=
  let n := cps.length
  let total := (cps.map (fun cp => cp.2.length)).sum
  let metaTag := 1 + n + total
  let book : EntryObj :=
    { idx := 0, class_name := "Book", data := jsonObj, refs := bookRefs n metaTag }
  let meta : EntryObj :=
    { idx := metaTag, class_name := "Meta", data := jsonObj,
      refs := [{ parent := metaTag, child := 0,
                 on_parent_property := "containedIn", on_child_property := Option.none }] }
  book :: meta :: (chaptersOf cps 1 (1 + n) ++ parasOf cps 1 (1 + n))

/-- Embedding of `BookCompilation.get_entries` (src/loaders/gutenberg.py):
read the chapter dictionaries, fail with the TypeError of
`functools.reduce` over an empty iterable when there is no chapter, read each
chapter's paragraph list, and yield the assembled entry sequence. -/
def get_entries (jsonObj : PyVal) : Except PyErr (List EntryObj) :=
  match pyGetItem jsonObj "chapters" with
  | Except.error e => Except.error e
  | Except.ok chaptersVal =>
    match pyAsList chaptersVal with
    | Except.error e => Except.error e
    | Except.ok [] => Except.error PyErr.typeError
    | Except.ok (c :: rest) =>
      match paragraphLists (c :: rest) with
      | Except.error e => Except.error e
      | Except.ok pls => Except.ok (assembleEntries jsonObj ((c :: rest).zip pls))

/-- Embedding of the `entry` property of the loader's `Book`: the dictionary
with only the book's own title and author fields. -/
def book_entry (e : EntryObj) : Except PyErr PyVal :=
  match pyGetItem e.data "title" with
  | Except.error err => Except.error err
  | Except.ok t =>
    match pyGetItem e.data "author" with
    | Except.error err => Except.error err
    | Except.ok a => Except.ok (PyVal.mkDict [("title", t), ("author", a)])

/-- Head of the flattened entry sequence (the Book entry on well-formed
input). -/
def headOfEntries (b : PyVal) : Option EntryObj :=
  (get_entries b).toOption.bind List.head?

end Loader

namespace Registry

/-- The concrete extractor classes of the repository (subclasses of the
abstract Extractor). -/
inductive ExtractorClass where
  | gutenbergHtml
deriving DecidableEq

/-- The attribute dictionary of the `Extractors` dataclass
(src/extractors, module init): its only class attribute is `extractors`, the
registry dictionary keyed by each subclass's `format` string
("gutenberg_html" for the Gutenberg extractor); in particular the class has
no attribute named "gutenberg". -/
def extractorsClassAttrs : List String := ["extractors"]

/-- Python class-attribute lookup on the `Extractors` dataclass. -/
def extractorsHasAttr (a : String) : Bool :=
  extractorsClassAttrs.contains a

/-- Errors `Extract.get_extractor` can raise. -/
inductive ExtractErr where
  | attributeError
  | extractorUnsupported
deriving DecidableEq

/-- Embedding of `Extract.get_extractor` (src/utils/extractor.py): the local
dictionary literal maps "gutenberg" to the attribute access
`Extractors.gutenberg`, which is evaluated before the try block; the
`Extractors` class has no such attribute, so the access raises
AttributeError.  Were the attribute present, an unregistered name would fall
to the KeyError handler and raise the unsupported-format error. -/
def get_extractor (name : String) : Except ExtractErr ExtractorClass :=
  if extractorsHasAttr "gutenberg" then
    if name = "gutenberg" then Except.ok ExtractorClass.gutenbergHtml
    else Except.error ExtractErr.extractorUnsupported
  else Except.error ExtractErr.attributeError

end Registry

/-! Concrete input documents used by witnesses and counterexamples. -/

/-- A document carrying every metadata annotation of the citation scenario. -/
def c8_doc : Html.HtmlDoc :=
  { meta_tags := [("dc.rights", "Public domain"), ("dc.creator", "Herman Melville"),
      ("dc.title", "Moby-Dick"), ("dc.language", "English"), ("dc.subject", "Whaling"),
      ("dcterms.source", "http://example"), ("dcterms.modified", "2021-05-01")],
    body_h1 := Option.none, body_h2 := Option.none, chapter_divs := [] }

/-- A document with no metadata annotations and no heading fallbacks. -/
def c8_missing_doc : Html.HtmlDoc :=
  { meta_tags := [], body_h1 := Option.none, body_h2 := Option.none, chapter_divs := [] }

/-- C8: for rights "Public domain", author "Herman Melville", title
"Moby-Dick", source "http://example", modifiedDate "2021-05-01", the
synthesized citation is exactly the expected string, the retrieval date
reformatted from YYYY-MM-DD to Mon DD, YYYY; and when every component is
missing each renders in place as its literal placeholder (the f-string
rendering None), no field skipped and no failure. -/
theorem C8_citation_synthesis :
    (Html.book_get c8_doc).citation =
      "Public domain Herman Melville. Moby-Dick. Urbana, Illinois: Project Gutenberg. Retrieved May 01, 2021 from http://example" ∧
    (Html.book_get c8_missing_doc).citation =
      "None None. None. Urbana, Illinois: Project Gutenberg. Retrieved None from None" :=
  ⟨rfl, rfl⟩

/-- C9: `get_extractor` evaluated at the failing input — in fact at every
requested name, registered or not — raises AttributeError from the class
attribute access `Extractors.gutenberg`, instead of returning the registered
extractor for "gutenberg" or the unsupported-format error for unknown
names. -/
theorem C9_get_extractor_attribute_error :
    ∀ name : String,
      Registry.get_extractor name = Except.error Registry.ExtractErr.attributeError :=
  fun _ => rfl

/-- C10: a Book entry whose data has an empty chapters list makes
`BookCompilation.get_entries` fail (the reduction of the empty paragraph-list
sequence with no initial value raises TypeError) rather than yield the
sequence Book, Meta. -/
theorem C10_empty_chapters_raises (jsonObj : Loader.PyVal)
    (h : Loader.pyGetItem jsonObj "chapters" = Except.ok (Loader.PyVal.mkList [])) :
    Loader.get_entries jsonObj = Except.error Loader.PyErr.typeError := by
  unfold Loader.get_entries
  rw [h]
  rfl

/-- Witness for C10 at a concrete Book data dictionary with an empty chapters
list. -/
theorem C10_empty_chapters_raises_witness :
    Loader.get_entries
        (Loader.PyVal.mkDict [("title", Loader.PyVal.str "T"),
          ("chapters", Loader.PyVal.mkList [])])
      = Except.error Loader.PyErr.typeError :=
  C10_empty_chapters_raises _ rfl

/-- C6 counterexample: a retained chapter whose heading text is the
chapter-number line, a line break, then the subtitle gets the heading's FIRST
line as its extracted title, not the remainder after the line break; and a
single-line heading yields that line, not an absent title. -/
theorem C6_counterexample :
    (Html.chapters_get
        [{ h2_text := some "CHAPTER 1.\nLoomings.", p_texts := ["Call me Ishmael."] }]).map
        (fun c => c.title) = [some "CHAPTER 1."] ∧
    some "CHAPTER 1." ≠ some "Loomings." ∧
    Html.get_title (some "Loomings") = some "Loomings" := by
  refine ⟨rfl, ?_, rfl⟩
  decide

/-- C6 (amended): the extracted title of a chapter with a level-2 heading is
the first line of the heading's text — except that a heading text starting
with a line break yields the line that follows it — and the title is absent
exactly when the chapter has no level-2 heading. -/
theorem C6_title_first_line (t : String) :
    (t.data.head? ≠ some (Char.ofNat 10) →
      Html.get_title (some t) = some (Html.firstLine t)) ∧
    (t.data.head? = some (Char.ofNat 10) →
      Html.get_title (some t) = some (Html.firstLine (String.mk t.data.tail))) ∧
    Html.get_title Option.none = Option.none := by
  refine ⟨?_, ?_, rfl⟩ <;> intro h <;>
    simp only [Html.get_title, Option.map, Html.regex_group1]
  · cases ht : t.data with
    | nil => simp [Html.firstLine, ht]
    | cons c rest =>
      rw [ht] at h
      simp only [List.head?] at h
      have hc : ¬ c = Char.ofNat 10 := fun hceq => h (by rw [hceq])
      simp [ht, hc]
  · cases ht : t.data with
    | nil => rw [ht] at h; simp at h
    | cons c rest =>
      rw [ht] at h
      simp only [List.head?, Option.some.injEq] at h
      simp [ht, h, Html.firstLine]

/-- Witness for C6 (amended) at the two concrete heading texts. -/
theorem C6_title_first_line_witness :
    Html.get_title (some "CHAPTER 1.\nLoomings.")
        = some (Html.firstLine "CHAPTER 1.\nLoomings.") ∧
    Html.get_title (some "\nLoomings")
        = some (Html.firstLine (String.mk "\nLoomings".data.tail)) :=
  ⟨(C6_title_first_line "CHAPTER 1.\nLoomings.").1 (by decide),
   (C6_title_first_line "\nLoomings").2.1 (by decide)⟩

/-- A document whose author annotation is present. -/
def c7_doc : Html.HtmlDoc :=
  { meta_tags := [("dc.creator", "Herman Melville")],
    body_h1 := Option.none, body_h2 := Option.none, chapter_divs := [] }

/-- A document with no author annotation but a level-2 heading fallback. -/
def c7_fallback_doc : Html.HtmlDoc :=
  { meta_tags := [], body_h1 := Option.none,
    body_h2 := some "by Herman Melville, 1851", chapter_divs := [] }

/-- A document with neither author annotation nor fallback heading. -/
def c7_empty_doc : Html.HtmlDoc :=
  { meta_tags := [], body_h1 := Option.none,
    body_h2 := Option.none, chapter_divs := [] }

/-- C7 counterexample: when the document-level author annotation is present,
the author field of the output document is the annotation's plain string, not
a list of strings. -/
theorem C7_counterexample :
    (Html.book_get c7_doc).author = Html.AuthorField.str "Herman Melville" ∧
    Html.AuthorField.isList (Html.book_get c7_doc).author = false :=
  ⟨rfl, rfl⟩

/-- C7 (amended): the author field is a list of strings only on the
heading-level-2 fallback path (the regex-extracted capitalized name tokens);
with the annotation present it is the annotation's plain string, and with
neither source available it is null. -/
theorem C7_author_shape (doc : Html.HtmlDoc) :
    (∀ a, Html.get_meta doc "dc.creator" = some a →
      (Html.book_get doc).author = Html.AuthorField.str a) ∧
    (Html.get_meta doc "dc.creator" = Option.none →
      ∀ t, doc.body_h2 = some t →
        (Html.book_get doc).author = Html.AuthorField.strlist (Html.author_findall t)) ∧
    (Html.get_meta doc "dc.creator" = Option.none → doc.body_h2 = Option.none →
      (Html.book_get doc).author = Html.AuthorField.null) := by
  refine ⟨?_, ?_, ?_⟩
  · intro a ha
    simp [Html.book_get, ha]
  · intro ha t ht
    simp [Html.book_get, ha, ht]
  · intro ha ht
    simp [Html.book_get, ha, ht]

/-- The materiality test fails exactly on cleaned text longer than two
characters. -/
theorem Html.is_empty_eq_false_iff (s : String) : Html.is_empty s = false ↔ 2 < s.length := by
  simp only [Html.is_empty, Bool.or_eq_false_iff, beq_eq_false_iff_ne, ne_eq]
  omega

/-- Every paragraph the builder emits has cleaned text longer than two
characters. -/
theorem Html.build_go_mem_big (ps : List String) : ∀ (k : Nat),
    ∀ p ∈ Html.build_paragraph_go ps k, 2 < p.text.length := by
  induction ps with
  | nil => intro k p hp; simp [Html.build_paragraph_go] at hp
  | cons q rest ih =>
    intro k p hp
    simp only [Html.build_paragraph_go] at hp
    by_cases h : Html.is_empty (Html.clean_paragraph q) = true
    · rw [if_pos h] at hp
      exact ih k p hp
    · rw [if_neg h] at hp
      rcases List.mem_cons.mp hp with hq | hmem
      · rw [hq]
        exact (Html.is_empty_eq_false_iff (Html.clean_paragraph q)).mp (Bool.eq_false_iff.mpr h)
      · exact ih (k + 1) p hmem

/-- Every input paragraph passing the materiality test is emitted, with its
cleaned text. -/
theorem Html.build_go_retains (ps : List String) : ∀ (k : Nat) (raw : String), raw ∈ ps →
    ¬ Html.is_empty (Html.clean_paragraph raw) = true →
    ∃ p ∈ Html.build_paragraph_go ps k, p.text = Html.clean_paragraph raw := by
  induction ps with
  | nil => intro k raw h; simp at h
  | cons q rest ih =>
    intro k raw hraw hclean
    simp only [Html.build_paragraph_go]
    rcases List.mem_cons.mp hraw with hq | hmem
    · subst hq
      rw [if_neg hclean]
      exact ⟨_, List.mem_cons_self _ _, rfl⟩
    · by_cases h : Html.is_empty (Html.clean_paragraph q) = true
      · rw [if_pos h]
        exact ih k raw hmem hclean
      · rw [if_neg h]
        obtain ⟨p, hp, ht⟩ := ih (k + 1) raw hmem hclean
        exact ⟨p, List.mem_cons_of_mem _ hp, ht⟩

/-- Every retained chapter record passed the materiality test. -/
theorem Html.clean_chapters_mem (chs : List Html.ChapterDiv) :
    ∀ cc ∈ Html.clean_chapters chs, ¬ Html.is_empty cc.text = true := by
  induction chs with
  | nil => intro cc h; simp [Html.clean_chapters] at h
  | cons c rest ih =>
    intro cc hcc
    simp only [Html.clean_chapters] at hcc
    by_cases h : Html.is_empty (Html.chapter_text c) = true
    · rw [if_pos h] at hcc
      exact ih cc hcc
    · rw [if_neg h] at hcc
      rcases List.mem_cons.mp hcc with heq | hmem
      · rw [heq]
        exact h
      · exact ih cc hmem

/-- Every chapter of the enumeration comes from a retained chapter record,
keeping its text, and its paragraphs are built from that record's paragraph
texts. -/
theorem Html.chapters_get_go_mem (l : List Html.CleanChapter) : ∀ (k : Nat)
    (c : Html.ChapterJson), c ∈ Html.chapters_get_go l k →
    ∃ cc ∈ l, c.text = cc.text ∧ c.paragraphs = Html.build_paragraph_set cc.paragraphs := by
  induction l with
  | nil => intro k c h; simp [Html.chapters_get_go] at h
  | cons cc0 rest ih =>
    intro k c hc
    simp only [Html.chapters_get_go] at hc
    rcases List.mem_cons.mp hc with heq | hmem
    · exact ⟨cc0, List.mem_cons_self _ _, by rw [heq], by rw [heq]⟩
    · obtain ⟨cc, hcc, h1, h2⟩ := ih (k + 1) c hmem
      exact ⟨cc, List.mem_cons_of_mem _ hcc, h1, h2⟩

/-- The enumeration preserves length. -/
theorem Html.chapters_get_go_length (l : List Html.CleanChapter) : ∀ k : Nat,
    (Html.chapters_get_go l k).length = l.length := by
  induction l with
  | nil => intro k; simp [Html.chapters_get_go]
  | cons cc rest ih => intro k; simp [Html.chapters_get_go, ih (k + 1)]

/-- Chapter sequence numbers are consecutive from the starting counter. -/
theorem Html.chapters_get_go_map_seq (l : List Html.CleanChapter) : ∀ k : Nat,
    (Html.chapters_get_go l k).map (fun c => c.seq) = List.range' k l.length := by
  induction l with
  | nil => intro k; simp [Html.chapters_get_go]
  | cons cc rest ih =>
    intro k
    simp [Html.chapters_get_go, List.range'_succ, ih (k + 1)]

/-- Paragraph sequence numbers are consecutive from the starting counter over
exactly the emitted paragraphs. -/
theorem Html.build_go_map_seq (ps : List String) : ∀ k : Nat,
    (Html.build_paragraph_go ps k).map (fun p => p.seq)
      = List.range' k (Html.build_paragraph_go ps k).length := by
  induction ps with
  | nil => intro k; simp [Html.build_paragraph_go]
  | cons q rest ih =>
    intro k
    simp only [Html.build_paragraph_go]
    by_cases h : Html.is_empty (Html.clean_paragraph q) = true
    · rw [if_pos h]
      exact ih k
    · rw [if_neg h]
      simp [List.range'_succ, ih (k + 1)]

/-- C4: every chapter and every paragraph of the extractor's output document
has cleaned text longer than two characters — so a chapter or paragraph whose
cleaned text has length at most two is absent, not emitted — and every
paragraph whose cleaned text has length exactly three is retained. -/
theorem C4_materiality_filter :
    (∀ (doc : Html.HtmlDoc), ∀ c ∈ (Html.book_get doc).chapters,
      2 < c.text.length ∧ ∀ p ∈ c.paragraphs, 2 < p.text.length) ∧
    (∀ (ps : List String) (raw : String), raw ∈ ps →
      (Html.clean_paragraph raw).length = 3 →
      ∃ p ∈ Html.build_paragraph_set ps, p.text = Html.clean_paragraph raw) := by
  constructor
  · intro doc c hc
    obtain ⟨cc, hccmem, htext, hpars⟩ :=
      Html.chapters_get_go_mem (Html.clean_chapters doc.chapter_divs) 1 c hc
    have hne := Html.clean_chapters_mem doc.chapter_divs cc hccmem
    constructor
    · rw [htext]
      exact (Html.is_empty_eq_false_iff cc.text).mp (Bool.eq_false_iff.mpr hne)
    · intro p hp
      rw [hpars] at hp
      exact Html.build_go_mem_big cc.paragraphs 1 p hp
  · intro ps raw hraw hlen
    refine Html.build_go_retains ps 1 raw hraw ?_
    exact Bool.eq_false_iff.mp ((Html.is_empty_eq_false_iff _).mpr (by omega))

/-- A three-chapter input document: the middle chapter's cleaned text has
length one and is dropped. -/
def c45_doc : Html.HtmlDoc :=
  { meta_tags := [], body_h1 := Option.none, body_h2 := Option.none,
    chapter_divs :=
      [{ h2_text := some "CHAPTER 1.\nLoomings.", p_texts := ["Call me Ishmael.", "a"] },
       { h2_text := Option.none, p_texts := ["x"] },
       { h2_text := some "II", p_texts := ["Second chapter opening paragraph.", "abc"] }] }

/-- Witness for C4 on concrete inputs: a two-character paragraph is dropped, a
three-character paragraph is retained, and a concrete retained chapter has
text longer than two characters. -/
theorem C4_materiality_filter_witness :
    ("abc" ∈ ["ab", "abc"]) ∧ (Html.clean_paragraph "abc").length = 3 ∧
    (∃ p ∈ Html.build_paragraph_set ["ab", "abc"], p.text = Html.clean_paragraph "abc") ∧
    2 < (({ title := some "CHAPTER 1.", seq := 1, text := "Call me Ishmael. a",
            paragraphs := [{ seq := 1, text := "Call me Ishmael." }] }
          : Html.ChapterJson)).text.length :=
  ⟨by simp, by decide,
   C4_materiality_filter.2 ["ab", "abc"] "abc" (by simp) (by decide),
   (C4_materiality_filter.1 c45_doc _ (by decide)).1⟩

/-- C5: after the materiality filter the chapter seq values of the output are
exactly 1..N in order, and the paragraph seq values within each retained
chapter are exactly 1..M, contiguous, 1-based, independent of dropped
content. -/
theorem C5_seq_contiguity (doc : Html.HtmlDoc) :
    (Html.book_get doc).chapters.map (fun c => c.seq)
      = List.range' 1 (Html.book_get doc).chapters.length ∧
    ∀ c ∈ (Html.book_get doc).chapters,
      c.paragraphs.map (fun p => p.seq) = List.range' 1 c.paragraphs.length := by
  constructor
  · have h1 := Html.chapters_get_go_map_seq (Html.clean_chapters doc.chapter_divs) 1
    have h2 := Html.chapters_get_go_length (Html.clean_chapters doc.chapter_divs) 1
    calc (Html.book_get doc).chapters.map (fun c => c.seq)
        = List.range' 1 (Html.clean_chapters doc.chapter_divs).length := h1
      _ = List.range' 1 (Html.book_get doc).chapters.length := by rw [← h2]; rfl
  · intro c hc
    obtain ⟨cc, _, _, hpars⟩ :=
      Html.chapters_get_go_mem (Html.clean_chapters doc.chapter_divs) 1 c hc
    rw [hpars]
    exact Html.build_go_map_seq cc.paragraphs 1

/-- Witness for C5 on the concrete three-chapter document (one chapter
dropped): chapter seqs are 1, 2 and the second retained chapter's paragraph
seqs are 1, 2. -/
theorem C5_seq_contiguity_witness :
    (Html.book_get c45_doc).chapters.map (fun c => c.seq)
      = List.range' 1 (Html.book_get c45_doc).chapters.length ∧
    ([{ seq := 1, text := "Second chapter opening paragraph." }, { seq := 2, text := "abc" }]
        : List Html.ParagraphJson).map (fun p => p.seq)
      = List.range' 1 ([{ seq := 1, text := "Second chapter opening paragraph." },
          { seq := 2, text := "abc" }] : List Html.ParagraphJson).length :=
  ⟨(C5_seq_contiguity c45_doc).1,
   (C5_seq_contiguity c45_doc).2
     { title := some "II", seq := 2, text := "Second chapter opening paragraph. abc",
       paragraphs := [{ seq := 1, text := "Second chapter opening paragraph." },
         { seq := 2, text := "abc" }] } (by decide)⟩

/-- Every Paragraph entry of a chapter carries exactly the reverse reference
to its chapter, and its identity tag lies in the chapter's block. -/
theorem Loader.parasOfChapter_mem (chapTag : Nat) (ps : List Loader.PyVal) : ∀ (base : Nat)
    (p : Loader.EntryObj), p ∈ Loader.parasOfChapter chapTag base ps →
    p.class_name = "Paragraph" ∧
    p.refs = [{ parent := p.idx, child := chapTag, on_parent_property := "containedIn",
                on_child_property := Option.none }] ∧
    ∃ j < ps.length, p.idx = base + j := by
  induction ps with
  | nil => intro base p hp; simp [Loader.parasOfChapter] at hp
  | cons q rest ih =>
    intro base p hp
    simp only [Loader.parasOfChapter] at hp
    rcases List.mem_cons.mp hp with heq | hmem
    · subst heq
      exact ⟨rfl, rfl, 0, by simp, by simp⟩
    · obtain ⟨h1, h2, j, hj, hidx⟩ := ih (base + 1) p hmem
      exact ⟨h1, h2, j + 1, by simpa using hj, by omega⟩

/-- Every identity tag of a chapter's paragraph block is realized by a
Paragraph entry. -/
theorem Loader.parasOfChapter_exists (chapTag : Nat) (ps : List Loader.PyVal) :
    ∀ (base j : Nat), j < ps.length →
    ∃ p ∈ Loader.parasOfChapter chapTag base ps, p.idx = base + j := by
  induction ps with
  | nil => intro base j h; simp at h
  | cons q rest ih =>
    intro base j hj
    cases j with
    | zero =>
      exact ⟨_, List.mem_cons_self _ _, by simp⟩
    | succ j =>
      obtain ⟨p, hp, hidx⟩ := ih (base + 1) j (by simpa using hj)
      exact ⟨p, List.mem_cons_of_mem _ hp, by omega⟩

/-- The identity tags of the Chapter entries are consecutive from the
starting tag. -/
theorem Loader.chaptersOf_map_idx (cps : List (Loader.PyVal × List Loader.PyVal)) :
    ∀ (tag base : Nat),
    (Loader.chaptersOf cps tag base).map (fun c => c.idx) = List.range' tag cps.length := by
  induction cps with
  | nil => intro tag base; simp [Loader.chaptersOf]
  | cons cp rest ih =>
    intro tag base
    obtain ⟨c, ps⟩ := cp
    simp [Loader.chaptersOf, Loader.chapterEntryOf, List.range'_succ,
      ih (tag + 1) (base + ps.length)]

/-- Structure of every Chapter entry's reference list: each reference has the
chapter in the parent slot and no `on_child_property`; it is either the
reverse reference to the book or a forward reference under `paragraphs` to a
Paragraph entry that carries the matching reverse reference. -/
theorem Loader.chaptersOf_mem (cps : List (Loader.PyVal × List Loader.PyVal)) :
    ∀ (tag base : Nat) (c : Loader.EntryObj), c ∈ Loader.chaptersOf cps tag base →
    c.class_name = "Chapter" ∧
    ({ parent := c.idx, child := 0, on_parent_property := "containedIn",
       on_child_property := Option.none } : Loader.RefObj) ∈ c.refs ∧
    ∀ r ∈ c.refs, r.parent = c.idx ∧ r.on_child_property = Option.none ∧
      (r = { parent := c.idx, child := 0, on_parent_property := "containedIn",
             on_child_property := Option.none } ∨
       (r.on_parent_property = "paragraphs" ∧
        ∃ p ∈ Loader.parasOf cps tag base, p.idx = r.child ∧
          p.refs = [{ parent := r.child, child := c.idx,
                      on_parent_property := "containedIn",
                      on_child_property := Option.none }])) := by
  induction cps with
  | nil => intro tag base c hc; simp [Loader.chaptersOf] at hc
  | cons cp rest ih =>
    intro tag base c hc
    obtain ⟨c0, ps⟩ := cp
    simp only [Loader.chaptersOf] at hc
    rcases List.mem_cons.mp hc with heq | hmem
    · subst heq
      refine ⟨rfl, List.mem_cons_self _ _, ?_⟩
      intro r hr
      rcases List.mem_cons.mp hr with hr1 | hr2
      · subst hr1
        exact ⟨rfl, rfl, Or.inl rfl⟩
      · obtain ⟨j, hjmem, hjr⟩ := List.mem_map.mp hr2
        have hj : j < ps.length := List.mem_range.mp hjmem
        subst hjr
        refine ⟨rfl, rfl, Or.inr ⟨rfl, ?_⟩⟩
        obtain ⟨p, hp, hpidx⟩ := Loader.parasOfChapter_exists tag ps base j hj
        have hfacts := Loader.parasOfChapter_mem tag ps base p hp
        refine ⟨p, ?_, ?_, ?_⟩
        · simp only [Loader.parasOf]
          exact List.mem_append_left _ hp
        · simpa using hpidx
        · simp [hfacts.2.1, hpidx, Loader.chapterEntryOf]
    · obtain ⟨h1, h2, h3⟩ := ih (tag + 1) (base + ps.length) c hmem
      refine ⟨h1, h2, ?_⟩
      intro r hr
      obtain ⟨ha, hb, hcase⟩ := h3 r hr
      refine ⟨ha, hb, ?_⟩
      rcases hcase with hl | ⟨hpp, p, hp, hpi, hpr⟩
      · exact Or.inl hl
      · refine Or.inr ⟨hpp, p, ?_, hpi, hpr⟩
        simp only [Loader.parasOf]
        exact List.mem_append_right _ hp

/-- Every consecutive chapter tag is realized by a Chapter entry carrying the
reverse reference to the book. -/
theorem Loader.chaptersOf_exists (cps : List (Loader.PyVal × List Loader.PyVal)) :
    ∀ (tag base i : Nat), i < cps.length →
    ∃ c ∈ Loader.chaptersOf cps tag base, c.idx = tag + i ∧
      ({ parent := tag + i, child := 0, on_parent_property := "containedIn",
         on_child_property := Option.none } : Loader.RefObj) ∈ c.refs := by
  induction cps with
  | nil => intro tag base i h; simp at h
  | cons cp rest ih =>
    intro tag base i hi
    obtain ⟨c0, ps⟩ := cp
    cases i with
    | zero =>
      refine ⟨Loader.chapterEntryOf c0 tag base ps.length, List.mem_cons_self _ _,
        by simp [Loader.chapterEntryOf], ?_⟩
      simp [Loader.chapterEntryOf]
    | succ i =>
      obtain ⟨c, hc, h1, h2⟩ := ih (tag + 1) (base + ps.length) i (by simpa using hi)
      refine ⟨c, List.mem_cons_of_mem _ hc, by omega, ?_⟩
      have heq : tag + (i + 1) = tag + 1 + i := by omega
      rw [heq]
      exact h2

/-- Every Paragraph entry points back, via its only reference, at a Chapter
entry that holds the matching forward reference. -/
theorem Loader.parasOf_mem (cps : List (Loader.PyVal × List Loader.PyVal)) :
    ∀ (tag base : Nat) (p : Loader.EntryObj), p ∈ Loader.parasOf cps tag base →
    p.class_name = "Paragraph" ∧
    ∃ c ∈ Loader.chaptersOf cps tag base,
      p.refs = [{ parent := p.idx, child := c.idx, on_parent_property := "containedIn",
                  on_child_property := Option.none }] ∧
      ({ parent := c.idx, child := p.idx, on_parent_property := "paragraphs",
         on_child_property := Option.none } : Loader.RefObj) ∈ c.refs := by
  induction cps with
  | nil => intro tag base p hp; simp [Loader.parasOf] at hp
  | cons cp rest ih =>
    intro tag base p hp
    obtain ⟨c0, ps⟩ := cp
    simp only [Loader.parasOf] at hp
    rcases List.mem_append.mp hp with hl | hr
    · obtain ⟨h1, h2, j, hj, hpidx⟩ := Loader.parasOfChapter_mem tag ps base p hl
      refine ⟨h1, Loader.chapterEntryOf c0 tag base ps.length, ?_, ?_, ?_⟩
      · simp only [Loader.chaptersOf]
        exact List.mem_cons_self _ _
      · simpa [Loader.chapterEntryOf] using h2
      · simp only [Loader.chapterEntryOf]
        rw [hpidx]
        exact List.mem_cons_of_mem _ (List.mem_map.mpr ⟨j, List.mem_range.mpr hj, rfl⟩)
    · obtain ⟨h1, c, hc, h2, h3⟩ := ih (tag + 1) (base + ps.length) p hr
      refine ⟨h1, c, ?_, h2, h3⟩
      simp only [Loader.chaptersOf]
      exact List.mem_cons_of_mem _ hc

/-- Reference pairing over the assembled entry list: every stored reference
has its owner in the parent slot and no `on_child_property`; every downward
reference is mirrored by the child's reverse `containedIn` reference, and
every reverse reference is mirrored by a forward reference of its target. -/
theorem Loader.assemble_pairing (jsonObj : Loader.PyVal)
    (cps : List (Loader.PyVal × List Loader.PyVal)) :
    ∀ e ∈ Loader.assembleEntries jsonObj cps, ∀ r ∈ e.refs,
      r.parent = e.idx ∧ r.on_child_property = Option.none ∧
      (r.on_parent_property ≠ "containedIn" →
        ∃ c ∈ Loader.assembleEntries jsonObj cps, c.idx = r.child ∧
          ({ parent := r.child, child := e.idx, on_parent_property := "containedIn",
             on_child_property := Option.none } : Loader.RefObj) ∈ c.refs) ∧
      (r.on_parent_property = "containedIn" →
        ∃ p ∈ Loader.assembleEntries jsonObj cps, p.idx = r.child ∧
          ∃ r2 ∈ p.refs, r2.parent = r.child ∧ r2.child = e.idx) := by
  intro e he r hr
  simp only [Loader.assembleEntries] at he ⊢
  rcases List.mem_cons.mp he with heB | he1
  · -- the Book entry
    subst heB
    simp only [Loader.bookRefs] at hr
    rcases List.mem_append.mp hr with h1 | h2
    · -- a forward reference to a chapter
      obtain ⟨i, hi, hri⟩ := List.mem_map.mp h1
      have hin : i < cps.length := List.mem_range.mp hi
      subst hri
      refine ⟨rfl, rfl, ?_, ?_⟩
      · intro _
        obtain ⟨c, hc, hcidx, hcref⟩ := Loader.chaptersOf_exists cps 1 (1 + cps.length) i hin
        exact ⟨c, List.mem_cons_of_mem _ (List.mem_cons_of_mem _ (List.mem_append_left _ hc)),
          hcidx, hcref⟩
      · intro hcontra
        simp at hcontra
    · -- the forward reference to the Meta entry
      have hre := List.mem_singleton.mp h2
      subst hre
      refine ⟨rfl, rfl, ?_, ?_⟩
      · intro _
        exact ⟨_, List.mem_cons_of_mem _ (List.mem_cons_self _ _), rfl,
          List.mem_cons_self _ _⟩
      · intro hcontra
        simp at hcontra
  rcases List.mem_cons.mp he1 with heM | he2
  · -- the Meta entry
    subst heM
    have hre := List.mem_singleton.mp hr
    subst hre
    refine ⟨rfl, rfl, ?_, ?_⟩
    · intro hcontra
      exact absurd rfl hcontra
    · intro _
      refine ⟨_, List.mem_cons_self _ _, rfl, ?_⟩
      refine ⟨{ parent := 0, child := 1 + cps.length + (cps.map (fun cp => cp.2.length)).sum, on_parent_property := "meta", on_child_property := Option.none }, ?_, rfl, rfl⟩
      simp only [Loader.bookRefs]
      exact List.mem_append_right _ (List.mem_cons_self _ _)
  rcases List.mem_append.mp he2 with hC | hP
  · -- a Chapter entry
    obtain ⟨hcls, hcref0, hall⟩ := Loader.chaptersOf_mem cps 1 (1 + cps.length) e hC
    obtain ⟨ha, hb, hcase⟩ := hall r hr
    refine ⟨ha, hb, ?_, ?_⟩
    · intro hne
      rcases hcase with hl | ⟨hpp, p, hp, hpi, hpr⟩
      · exact absurd (by rw [hl]) hne
      · refine ⟨p,
          List.mem_cons_of_mem _ (List.mem_cons_of_mem _ (List.mem_append_right _ hp)),
          hpi, ?_⟩
        rw [hpr]
        exact List.mem_cons_self _ _
    · intro hcon
      rcases hcase with hl | ⟨hpp, p, hp, hpi, hpr⟩
      · -- the chapter's reverse reference: the Book entry holds the forward one
        have hidx : e.idx ∈ List.range' 1 cps.length := by
          rw [← Loader.chaptersOf_map_idx cps 1 (1 + cps.length)]
          exact List.mem_map_of_mem _ hC
        obtain ⟨hle, hlt⟩ := List.mem_range'_1.mp hidx
        refine ⟨_, List.mem_cons_self _ _, by rw [hl], ?_⟩
        refine ⟨{ parent := 0, child := 1 + (e.idx - 1), on_parent_property := "chapters", on_child_property := Option.none }, ?_, ?_, ?_⟩
        · simp only [Loader.bookRefs]
          exact List.mem_append_left _
            (List.mem_map.mpr ⟨e.idx - 1, List.mem_range.mpr (by omega), rfl⟩)
        · rw [hl]
        · show 1 + (e.idx - 1) = e.idx
          omega
      · rw [hpp] at hcon
        exact absurd hcon (by decide)
  · -- a Paragraph entry
    obtain ⟨hcls, c, hcmem, hrefs, hcref⟩ := Loader.parasOf_mem cps 1 (1 + cps.length) e hP
    rw [hrefs] at hr
    have hre := List.mem_singleton.mp hr
    subst hre
    refine ⟨rfl, rfl, ?_, ?_⟩
    · intro hne
      exact absurd rfl hne
    · intro _
      refine ⟨c,
        List.mem_cons_of_mem _ (List.mem_cons_of_mem _ (List.mem_append_left _ hcmem)),
        rfl, ?_⟩
      exact ⟨_, hcref, rfl, rfl⟩

/-- Reading the paragraph lists succeeds with exactly one list per chapter. -/
theorem Loader.paragraphLists_length (cs : List Loader.PyVal) :
    ∀ (pls : List (List Loader.PyVal)),
    Loader.paragraphLists cs = Except.ok pls → pls.length = cs.length := by
  induction cs with
  | nil =>
    intro pls h
    simp only [Loader.paragraphLists, Except.ok.injEq] at h
    simp [← h]
  | cons c rest ih =>
    intro pls h
    simp only [Loader.paragraphLists] at h
    split at h
    · exact Except.noConfusion h
    · split at h
      · exact Except.noConfusion h
      · split at h
        · exact Except.noConfusion h
        · rw [Except.ok.injEq] at h
          subst h
          rename_i more heq
          simp [ih more heq]

/-- On a well-formed book dictionary `get_entries` succeeds with the
assembled entry list. -/
theorem Loader.get_entries_eq (jsonObj : Loader.PyVal) (cs : List Loader.PyVal)
    (pls : List (List Loader.PyVal))
    (h1 : Loader.pyGetItem jsonObj "chapters" = Except.ok (Loader.PyVal.mkList cs))
    (h2 : cs ≠ []) (h3 : Loader.paragraphLists cs = Except.ok pls) :
    Loader.get_entries jsonObj = Except.ok (Loader.assembleEntries jsonObj (cs.zip pls)) := by
  cases cs with
  | nil => exact absurd rfl h2
  | cons c rest =>
    rw [Loader.get_entries, h1]
    show (match Loader.pyAsList (Loader.PyVal.mkList (c :: rest)) with
      | Except.error e => Except.error e
      | Except.ok [] => Except.error Loader.PyErr.typeError
      | Except.ok (c :: rest) =>
        match Loader.paragraphLists (c :: rest) with
        | Except.error e => Except.error e
        | Except.ok pls =>
          Except.ok (Loader.assembleEntries jsonObj ((c :: rest).zip pls))) = _
    rw [Loader.pyAsList_mkList]
    show (match Loader.paragraphLists (c :: rest) with
      | Except.error e => Except.error e
      | Except.ok pls =>
        Except.ok (Loader.assembleEntries jsonObj ((c :: rest).zip pls))) = _
    rw [h3]

/-- Class and data of the Chapter entries, in order. -/
theorem Loader.chaptersOf_map_cd (cps : List (Loader.PyVal × List Loader.PyVal)) :
    ∀ (tag base : Nat),
    (Loader.chaptersOf cps tag base).map (fun e => (e.class_name, e.data))
      = cps.map (fun cp => ("Chapter", cp.1)) := by
  induction cps with
  | nil => intro tag base; simp [Loader.chaptersOf]
  | cons cp rest ih =>
    intro tag base
    obtain ⟨c, ps⟩ := cp
    simp [Loader.chaptersOf, Loader.chapterEntryOf, ih (tag + 1) (base + ps.length)]

/-- Class and data of one chapter's Paragraph entries, in order. -/
theorem Loader.parasOfChapter_map_cd (chapTag : Nat) (ps : List Loader.PyVal) :
    ∀ base : Nat,
    (Loader.parasOfChapter chapTag base ps).map (fun e => (e.class_name, e.data))
      = ps.map (fun p => ("Paragraph", p)) := by
  induction ps with
  | nil => intro base; simp [Loader.parasOfChapter]
  | cons q rest ih => intro base; simp [Loader.parasOfChapter, ih (base + 1)]

/-- Class and data of all Paragraph entries: the chapter-major flattening. -/
theorem Loader.parasOf_map_cd (cps : List (Loader.PyVal × List Loader.PyVal)) :
    ∀ (tag base : Nat),
    (Loader.parasOf cps tag base).map (fun e => (e.class_name, e.data))
      = (cps.map (fun cp => cp.2)).flatten.map (fun p => ("Paragraph", p)) := by
  induction cps with
  | nil => intro tag base; simp [Loader.parasOf]
  | cons cp rest ih =>
    intro tag base
    obtain ⟨c, ps⟩ := cp
    simp [Loader.parasOf, Loader.parasOfChapter_map_cd,
      ih (tag + 1) (base + ps.length)]

/-- C3: on a well-formed book dictionary with at least one chapter the
flattened entry sequence is exactly Book, Meta, the Chapters in order, then
all Paragraphs in (chapter, seq) order — chapter-major, preserving each
chapter's paragraph order. -/
theorem C3_flatten_order (jsonObj : Loader.PyVal) (cs : List Loader.PyVal)
    (pls : List (List Loader.PyVal))
    (h1 : Loader.pyGetItem jsonObj "chapters" = Except.ok (Loader.PyVal.mkList cs))
    (h2 : cs ≠ []) (h3 : Loader.paragraphLists cs = Except.ok pls) :
    (Loader.get_entries jsonObj).map (fun es => es.map (fun e => (e.class_name, e.data)))
      = Except.ok (("Book", jsonObj) :: ("Meta", jsonObj)
          :: (cs.map (fun c => ("Chapter", c))
              ++ pls.flatten.map (fun p => ("Paragraph", p)))) := by
  have hlen := Loader.paragraphLists_length cs pls h3
  have hfst : (cs.zip pls).map (fun cp => (("Chapter" : String), cp.1))
      = cs.map (fun c => ("Chapter", c)) := by
    calc (cs.zip pls).map (fun cp => (("Chapter" : String), cp.1))
        = ((cs.zip pls).map Prod.fst).map (fun c => ("Chapter", c)) := by
          rw [List.map_map]
          rfl
      _ = cs.map (fun c => ("Chapter", c)) := by rw [List.map_fst_zip cs pls (by omega)]
  have hsnd : (cs.zip pls).map (fun cp => cp.2) = pls := by
    calc (cs.zip pls).map (fun cp => cp.2)
        = (cs.zip pls).map Prod.snd := rfl
      _ = pls := List.map_snd_zip cs pls (by omega)
  rw [Loader.get_entries_eq jsonObj cs pls h1 h2 h3]
  simp only [Except.map, Loader.assembleEntries, List.map_cons, List.map_append,
    Loader.chaptersOf_map_cd, Loader.parasOf_map_cd, Except.ok.injEq]
  rw [hfst, hsnd]

/-- The seven dictionaries of the two-chapter example book: the first chapter
has one paragraph, the second has two. -/
def c3_p11 : Loader.PyVal :=
  Loader.PyVal.mkDict [("seq", Loader.PyVal.int 1), ("text", Loader.PyVal.str "First chapter, only paragraph.")]

/-- First paragraph of the second chapter. -/
def c3_p21 : Loader.PyVal :=
  Loader.PyVal.mkDict [("seq", Loader.PyVal.int 1), ("text", Loader.PyVal.str "Second chapter, first paragraph.")]

/-- Second paragraph of the second chapter. -/
def c3_p22 : Loader.PyVal :=
  Loader.PyVal.mkDict [("seq", Loader.PyVal.int 2), ("text", Loader.PyVal.str "Second chapter, second paragraph.")]

/-- First chapter dictionary, seq 1. -/
def c3_c1 : Loader.PyVal :=
  Loader.PyVal.mkDict [("title", Loader.PyVal.str "One"), ("seq", Loader.PyVal.int 1),
    ("text", Loader.PyVal.str "First chapter, only paragraph."),
    ("paragraphs", Loader.PyVal.mkList [c3_p11])]

/-- Second chapter dictionary, seq 2. -/
def c3_c2 : Loader.PyVal :=
  Loader.PyVal.mkDict [("title", Loader.PyVal.str "Two"), ("seq", Loader.PyVal.int 2),
    ("text", Loader.PyVal.str "Second chapter, first paragraph. Second chapter, second paragraph."),
    ("paragraphs", Loader.PyVal.mkList [c3_p21, c3_p22])]

/-- The example book dictionary with the two chapters. -/
def c3_book : Loader.PyVal :=
  Loader.PyVal.mkDict [("title", Loader.PyVal.str "B"), ("author", Loader.PyVal.none),
    ("meta", Loader.PyVal.mkDict [("language", Loader.PyVal.str "en")]),
    ("chapters", Loader.PyVal.mkList [c3_c1, c3_c2])]

/-- Witness for C3 on the book with 2 chapters (1 paragraph, then 2): the
yielded sequence is Book, Meta, Chapter(seq 1), Chapter(seq 2),
Paragraph(seq 1 of chapter 1), Paragraph(seq 1 of chapter 2),
Paragraph(seq 2 of chapter 2). -/
theorem C3_flatten_order_witness :
    (Loader.get_entries c3_book).map (fun es => es.map (fun e => (e.class_name, e.data)))
      = Except.ok [("Book", c3_book), ("Meta", c3_book), ("Chapter", c3_c1), ("Chapter", c3_c2),
          ("Paragraph", c3_p11), ("Paragraph", c3_p21), ("Paragraph", c3_p22)] :=
  C3_flatten_order c3_book [c3_c1, c3_c2] [[c3_p11], [c3_p21, c3_p22]] rfl (by simp) rfl

/-- C2 (amended): for every parent-child pair created by flattening, the
parent's reference set contains the forward Reference to the child via
`on_parent_property`, and the child's reference set contains a second,
endpoint-swapped Reference back to the parent — with the child in the parent
slot, via `on_parent_property` = "containedIn" — while `on_child_property` is
never set on any Reference. -/
theorem C2_reference_pairing (jsonObj : Loader.PyVal) (es : List Loader.EntryObj)
    (h : Loader.get_entries jsonObj = Except.ok es) :
    ∀ e ∈ es, ∀ r ∈ e.refs,
      r.parent = e.idx ∧ r.on_child_property = Option.none ∧
      (r.on_parent_property ≠ "containedIn" →
        ∃ c ∈ es, c.idx = r.child ∧
          ({ parent := r.child, child := e.idx, on_parent_property := "containedIn",
             on_child_property := Option.none } : Loader.RefObj) ∈ c.refs) ∧
      (r.on_parent_property = "containedIn" →
        ∃ p ∈ es, p.idx = r.child ∧
          ∃ r2 ∈ p.refs, r2.parent = r.child ∧ r2.child = e.idx) := by
  rw [Loader.get_entries] at h
  split at h
  · exact Except.noConfusion h
  · split at h
    · exact Except.noConfusion h
    · exact Except.noConfusion h
    · split at h
      · exact Except.noConfusion h
      · rw [Except.ok.injEq] at h
        subst h
        exact Loader.assemble_pairing _ _

/-- One-chapter, one-paragraph book used for the C2 record. -/
def c2_para : Loader.PyVal :=
  Loader.PyVal.mkDict [("seq", Loader.PyVal.int 1), ("text", Loader.PyVal.str "Call me Ishmael.")]

/-- The chapter dictionary of the C2 record. -/
def c2_chapter : Loader.PyVal :=
  Loader.PyVal.mkDict [("title", Loader.PyVal.none), ("seq", Loader.PyVal.int 1),
    ("text", Loader.PyVal.str "Call me Ishmael."),
    ("paragraphs", Loader.PyVal.mkList [c2_para])]

/-- The book dictionary of the C2 record. -/
def c2_book : Loader.PyVal :=
  Loader.PyVal.mkDict [("title", Loader.PyVal.str "T"), ("author", Loader.PyVal.none),
    ("chapters", Loader.PyVal.mkList [c2_chapter])]

/-- The Meta entry flattening produces for the C2 book. -/
def c2_meta_entry : Loader.EntryObj :=
  { idx := 3, class_name := "Meta", data := c2_book,
    refs := [{ parent := 3, child := 0, on_parent_property := "containedIn",
               on_child_property := Option.none }] }

/-- The full entry list flattening produces for the C2 book. -/
def c2_entries : List Loader.EntryObj :=
  [{ idx := 0, class_name := "Book", data := c2_book,
     refs := [{ parent := 0, child := 1, on_parent_property := "chapters",
                on_child_property := Option.none },
              { parent := 0, child := 3, on_parent_property := "meta",
                on_child_property := Option.none }] },
   c2_meta_entry,
   { idx := 1, class_name := "Chapter", data := c2_chapter,
     refs := [{ parent := 1, child := 0, on_parent_property := "containedIn",
                on_child_property := Option.none },
              { parent := 1, child := 2, on_parent_property := "paragraphs",
                on_child_property := Option.none }] },
   { idx := 2, class_name := "Paragraph", data := c2_para,
     refs := [{ parent := 2, child := 1, on_parent_property := "containedIn",
                on_child_property := Option.none }] }]

/-- C2 counterexample: flattening the concrete one-chapter book produces the
four entries of the record — so Book-Meta, Book-Chapter and Chapter-Paragraph
pairs all exist — yet no reference of any entry has `on_child_property` set:
no child's reference set contains a mirrored Reference via
`on_child_property`. -/
theorem C2_counterexample :
    Loader.get_entries c2_book = Except.ok c2_entries ∧
    (c2_entries.map (fun e => e.refs.filter (fun r => r.on_child_property.isSome))).flatten
      = [] :=
  ⟨rfl, rfl⟩

/-- Witness for C2 (amended): the pairing theorem applied to the concrete C2
book, specialized to the Meta entry's reverse reference. -/
theorem C2_reference_pairing_witness :
    ({ parent := 3, child := 0, on_parent_property := "containedIn",
       on_child_property := Option.none } : Loader.RefObj).parent = c2_meta_entry.idx :=
  (C2_reference_pairing c2_book c2_entries rfl c2_meta_entry
    (List.mem_cons_of_mem _ (List.mem_cons_self _ _)) _ (List.mem_cons_self _ _)).1

/-- A book dictionary whose single chapter's text is the given string. -/
def c1_book (t : String) : Loader.PyVal :=
  Loader.PyVal.mkDict [("title", Loader.PyVal.str "Moby-Dick"),
    ("author", Loader.PyVal.mkList [Loader.PyVal.str "Herman Melville"]),
    ("chapters", Loader.PyVal.mkList
      [Loader.PyVal.mkDict [("title", Loader.PyVal.none), ("seq", Loader.PyVal.int 1),
        ("text", Loader.PyVal.str t),
        ("paragraphs", Loader.PyVal.mkList
          [Loader.PyVal.mkDict [("seq", Loader.PyVal.int 1), ("text", Loader.PyVal.str t)]])]])]

/-- C1 counterexample: the Book entries of two flattened documents agree on
class name and on the Book's own-property payload (title and author) yet
receive different identifiers, because the identifier is derived from the
full constructor data, nested chapters included. -/
theorem C1_counterexample :
    (Loader.headOfEntries (c1_book "Call me Ishmael.")).map (fun e => e.class_name)
        = some "Book" ∧
    (Loader.headOfEntries (c1_book "It was a dark night.")).map (fun e => e.class_name)
        = some "Book" ∧
    (Loader.headOfEntries (c1_book "Call me Ishmael.")).map Loader.book_entry
        = (Loader.headOfEntries (c1_book "It was a dark night.")).map Loader.book_entry ∧
    (Loader.headOfEntries (c1_book "Call me Ishmael.")).map Loader.entry_uuid
        ≠ (Loader.headOfEntries (c1_book "It was a dark night.")).map Loader.entry_uuid := by
  refine ⟨rfl, rfl, rfl, ?_⟩
  decide

/-- C1 (amended): the identifier is a pure function of the pair of class name
and full constructor data (nested children included): any two entries
agreeing on both — whatever their identity tags or accumulated references —
receive the identical identifier, and repeated computation with equal inputs
yields the same value. -/
theorem C1_uuid_function_of_full_data (e1 e2 : Loader.EntryObj)
    (h1 : e1.data = e2.data) (h2 : e1.class_name = e2.class_name) :
    Loader.entry_uuid e1 = Loader.entry_uuid e2 := by
  unfold Loader.entry_uuid Loader.generate_uuid5
  rw [h1, h2]

/-- Witness for C1 (amended): two entries with equal data and class but
different tags and reference lists share the identifier. -/
theorem C1_uuid_function_of_full_data_witness :
    Loader.entry_uuid { idx := 0, class_name := "Book", data := Loader.PyVal.str "d", refs := [] }
      = Loader.entry_uuid { idx := 7, class_name := "Book", data := Loader.PyVal.str "d", refs := [{ parent := 7, child := 0, on_parent_property := "meta", on_child_property := Option.none }] } :=
  C1_uuid_function_of_full_data _ _ rfl rfl

/-- Witness for C7 (amended) on the three concrete documents. -/
theorem C7_author_shape_witness :
    (Html.book_get c7_doc).author = Html.AuthorField.str "Herman Melville" ∧
    (Html.book_get c7_fallback_doc).author
        = Html.AuthorField.strlist (Html.author_findall "by Herman Melville, 1851") ∧
    (Html.book_get c7_empty_doc).author = Html.AuthorField.null :=
  ⟨(C7_author_shape c7_doc).1 "Herman Melville" rfl,
   (C7_author_shape c7_fallback_doc).2.1 rfl "by Herman Melville, 1851" rfl,
   (C7_author_shape c7_empty_doc).2.2 rfl rfl⟩

end Erudite
